import Mathlib

/-!
# Cluster dashboard backend (app/main.go): shallow embedding

The file embeds the four builders (buildNodeInfo, buildPodInfo,
buildDeploymentInfo, buildNodeMetrics) and the request handler
metricsHandler of app/main.go, together with the part of Go's
encoding/json that the handler relies on (nil slices, omitempty, field
order), and proves properties of them.

Conventions of the embedding:

* A Go slice is `Slice α = Option (List α)`: `none` is the nil slice,
  `some xs` a non-nil slice.  `append` on a nil slice allocates.
* A Go `int32` is an `Int`; `+=` wraps modulo 2^32 (`wrapInt32`).
* A Go map is the list of its entries in the order in which the `range`
  statement of this run visits them; a well-formed map has pairwise
  distinct keys (`Node.WF`).
* A `resource.Quantity` is represented by its canonical string, the value
  of `Quantity.String()`.
* The result of a list call of the client is `Except String (List α)`:
  `error e` when `err != nil`, `ok items` otherwise.
-/

namespace Dashboard

/-! ## Go primitives -/

/-- A Go slice: `none` is nil, `some xs` is a non-nil slice holding `xs`. -/
abbrev Slice (α : Type) := Option (List α)

/-- Go `append(s, x)`. -/
def Slice.append {α : Type} : Slice α → α → Slice α
  | none, x => some [x]
  | some xs, x => some (xs ++ [x])

/-- Go `len(s)`. -/
def Slice.len {α : Type} : Slice α → Nat
  | none => 0
  | some xs => xs.length

/-- The elements of a slice, nil and empty alike giving the empty list. -/
def Slice.elems {α : Type} : Slice α → List α
  | none => []
  | some xs => xs

/-- Two's-complement wrap of an integer into the range of `int32`. -/
def wrapInt32 (z : Int) : Int := (z + 2147483648) % 4294967296 - 2147483648

/-- The range of a Go `int32`. -/
def isInt32 (z : Int) : Prop := -2147483648 ≤ z ∧ z ≤ 2147483647

instance (z : Int) : Decidable (isInt32 z) := by unfold isInt32; infer_instance

/-! ## Upstream objects (k8s.io/api), restricted to the fields read -/

/-- The constant corev1.NodeReady. -/
def NodeReady : String := "Ready"

/-- The constant corev1.ConditionTrue. -/
def ConditionTrue : String := "True"

/-- A corev1.NodeCondition (`CondType` is the Go field `Type`). -/
structure NodeCondition where
  CondType : String
  Status : String
  deriving DecidableEq, Repr

/-- A corev1.ResourceList, by the canonical strings of `Cpu()` and `Memory()`. -/
structure ResourceList where
  Cpu : String
  Memory : String
  deriving DecidableEq, Repr

/-- A corev1.NodeStatus. -/
structure NodeStatus where
  Capacity : ResourceList
  Conditions : List NodeCondition
  deriving DecidableEq, Repr

/-- A corev1.Node; `Labels` lists the map entries in iteration order. -/
structure Node where
  Name : String
  Labels : List (String × String)
  Status : NodeStatus
  deriving DecidableEq, Repr

/-- A well-formed node: its label map has pairwise distinct keys. -/
def Node.WF (n : Node) : Prop := (n.Labels.map Prod.fst).Nodup

instance (n : Node) : Decidable n.WF := by unfold Node.WF; infer_instance

/-- A corev1.ContainerStatus. -/
structure ContainerStatus where
  RestartCount : Int
  deriving DecidableEq, Repr

/-- A corev1.PodStatus. -/
structure PodStatus where
  Phase : String
  ContainerStatuses : List ContainerStatus
  deriving DecidableEq, Repr

/-- A corev1.PodSpec. -/
structure PodSpec where
  NodeName : String
  deriving DecidableEq, Repr

/-- A corev1.Pod. -/
structure Pod where
  Name : String
  Namespace : String
  Spec : PodSpec
  Status : PodStatus
  deriving DecidableEq, Repr

/-- A well-formed pod: every restart counter is an `int32`. -/
def Pod.WF (p : Pod) : Prop := ∀ cs ∈ p.Status.ContainerStatuses, isInt32 cs.RestartCount

/-- An appsv1.DeploymentSpec; `Replicas` is a `*int32`, `none` being nil. -/
structure DeploymentSpec where
  Replicas : Option Int
  deriving DecidableEq, Repr

/-- An appsv1.DeploymentStatus. -/
structure DeploymentStatus where
  ReadyReplicas : Int
  deriving DecidableEq, Repr

/-- An appsv1.Deployment. -/
structure Deployment where
  Name : String
  Namespace : String
  Spec : DeploymentSpec
  Status : DeploymentStatus
  deriving DecidableEq, Repr

/-- A metricsv1beta1.NodeMetrics (the upstream object). -/
structure RawNodeMetrics where
  Name : String
  Usage : ResourceList
  deriving DecidableEq, Repr

/-! ## Response types -/

/-- The response record NodeInfo. -/
structure NodeInfo where
  Name : String
  Roles : Slice String
  Ready : Bool
  CPUCap : String
  MemCap : String
  deriving DecidableEq, Repr

/-- The response record NodeMetrics. -/
structure NodeMetrics where
  Name : String
  CPU : String
  Mem : String
  deriving DecidableEq, Repr

/-- The response record PodInfo. -/
structure PodInfo where
  Name : String
  Namespace : String
  Phase : String
  Restarts : Int
  Node : String
  deriving DecidableEq, Repr

/-- The response record DeploymentInfo. -/
structure DeploymentInfo where
  Name : String
  Namespace : String
  Desired : Int
  Ready : Int
  deriving DecidableEq, Repr

/-- The response record MetricsResponse. -/
structure MetricsResponse where
  Nodes : Slice NodeInfo
  Pods : Slice PodInfo
  Deployments : Slice DeploymentInfo
  NodeMetrics : Slice NodeMetrics
  deriving DecidableEq, Repr

/-! ## Builders -/

/-- The label key of the control-plane role. -/
def controlPlaneKey : String := "node-role.kubernetes.io/control-plane"

/-- The legacy label key of the control-plane role. -/
def masterKey : String := "node-role.kubernetes.io/master"

/-- The label key of the worker role. -/
def workerKey : String := "node-role.kubernetes.io/worker"

/-- One iteration of the loop over `n.Status.Conditions` (main.go 135-137). -/
def conditionStep (info : NodeInfo) (c : NodeCondition) : NodeInfo :=
  if c.CondType = NodeReady then
    { info with Ready := decide (c.Status = ConditionTrue) }
  else info

/-- One iteration of the loop over the keys of `n.Labels` (main.go 140-145). -/
def labelStep (info : NodeInfo) (kv : String × String) : NodeInfo :=
  if kv.1 = controlPlaneKey ∨ kv.1 = masterKey then
    { info with Roles := info.Roles.append "control-plane" }
  else if kv.1 = workerKey then
    { info with Roles := info.Roles.append "worker" }
  else info

/-- The function buildNodeInfo (main.go 128-151). -/
def buildNodeInfo (n : Node) : NodeInfo :=
  let info : NodeInfo :=
    { Name := n.Name
      Roles := none
      Ready := false
      CPUCap := n.Status.Capacity.Cpu
      MemCap := n.Status.Capacity.Memory }
  let info := n.Status.Conditions.foldl conditionStep info
  let info := n.Labels.foldl labelStep info
  if info.Roles.len = 0 then { info with Roles := some ["worker"] } else info

/-- The function buildPodInfo (main.go 153-165). -/
def buildPodInfo (p : Pod) : PodInfo :=
  let restarts : Int :=
    p.Status.ContainerStatuses.foldl
      (fun restarts cs => wrapInt32 (restarts + cs.RestartCount)) 0
  { Name := p.Name
    Namespace := p.Namespace
    Phase := p.Status.Phase
    Restarts := restarts
    Node := p.Spec.NodeName }

/-- The function buildDeploymentInfo (main.go 167-178). -/
def buildDeploymentInfo (d : Deployment) : DeploymentInfo :=
  let desired : Int :=
    match d.Spec.Replicas with
    | some r => r
    | none => 0
  { Name := d.Name
    Namespace := d.Namespace
    Desired := desired
    Ready := d.Status.ReadyReplicas }

/-- The function buildNodeMetrics (main.go 180-186). -/
def buildNodeMetrics (m : RawNodeMetrics) : NodeMetrics :=
  { Name := m.Name
    CPU := m.Usage.Cpu
    Mem := m.Usage.Memory }

/-! ## The encoder (encoding/json, as used by the handler) -/

/-- A JSON document. -/
inductive JSON where
  | null
  | bool (b : Bool)
  | num (n : Int)
  | str (s : String)
  | arr (xs : List JSON)
  | obj (kvs : List (String × JSON))
  deriving Repr

/-- The value of a member of a JSON object, if the key is present. -/
def JSON.field? : JSON → String → Option JSON
  | .obj kvs, k => (kvs.find? (fun kv => kv.1 = k)).map Prod.snd
  | _, _ => none

/-- The keys of a JSON object, in order. -/
def JSON.keys : JSON → List String
  | .obj kvs => kvs.map Prod.fst
  | _ => []

/-- Whether the document is an array. -/
def JSON.isArray : JSON → Bool
  | .arr _ => true
  | _ => false

mutual
/-- Whether the key occurs as a member name anywhere in the document. -/
def JSON.hasKey (k : String) : JSON → Bool
  | .arr xs => anyHasKey k xs
  | .obj kvs => anyMemberHasKey k kvs
  | _ => false
/-- Whether the key occurs in one of the documents. -/
def anyHasKey (k : String) : List JSON → Bool
  | [] => false
  | x :: xs => x.hasKey k || anyHasKey k xs
/-- Whether the key occurs as a name or inside a value of the members. -/
def anyMemberHasKey (k : String) : List (String × JSON) → Bool
  | [] => false
  | (name, v) :: kvs => decide (name = k) || v.hasKey k || anyMemberHasKey k kvs
end

/-- A lower-case hexadecimal digit. -/
def hexDigit (n : Nat) : Char :=
  if n < 10 then Char.ofNat (48 + n) else Char.ofNat (87 + n)

/-- The escape of one character inside a JSON string, as the encoder of Go
writes it with HTML escaping on (its default): the quote and the backslash
get a backslash, the control characters 8, 12, 10, 13, 9 their short form,
the other characters below 32 and the characters 60, 62, 38 the form u00XX,
the separators U+2028 and U+2029 the form u202X. A Lean string is valid
Unicode, so the replacement of invalid bytes does not arise. -/
def escapeChar (c : Char) : String :=
  let bs := String.singleton (Char.ofNat 92)
  let n := c.toNat
  if n = 34 ∨ n = 92 then bs ++ String.singleton c
  else if n = 8 then bs ++ "b"
  else if n = 12 then bs ++ "f"
  else if n = 10 then bs ++ "n"
  else if n = 13 then bs ++ "r"
  else if n = 9 then bs ++ "t"
  else if n < 32 ∨ n = 60 ∨ n = 62 ∨ n = 38 then
    bs ++ "u00" ++ String.singleton (hexDigit (n / 16)) ++ String.singleton (hexDigit (n % 16))
  else if n = 8232 ∨ n = 8233 then
    bs ++ "u202" ++ String.singleton (hexDigit (n % 16))
  else String.singleton c

/-- A JSON string literal. -/
def quoteString (s : String) : String :=
  "\"" ++ String.join (s.toList.map escapeChar) ++ "\""

mutual
/-- The compact text of a JSON document. -/
def JSON.render : JSON → String
  | .null => "null"
  | .bool b => if b then "true" else "false"
  | .num n => toString n
  | .str s => quoteString s
  | .arr xs => "[" ++ renderElems xs ++ "]"
  | .obj kvs => "\x7b" ++ renderMembers kvs ++ "\x7d"
/-- The elements of an array, separated by commas. -/
def renderElems : List JSON → String
  | [] => ""
  | [x] => x.render
  | x :: y :: xs => x.render ++ "," ++ renderElems (y :: xs)
/-- The members of an object, separated by commas. -/
def renderMembers : List (String × JSON) → String
  | [] => ""
  | [(k, v)] => quoteString k ++ ":" ++ v.render
  | (k, v) :: kv :: kvs => quoteString k ++ ":" ++ v.render ++ "," ++ renderMembers (kv :: kvs)
end

/-- The encoding of a slice: a nil slice is null, any other an array. -/
def Slice.toJSON {α : Type} (f : α → JSON) : Slice α → JSON
  | none => .null
  | some xs => .arr (xs.map f)

/-- The encoding of a NodeInfo, by its field tags. -/
def NodeInfo.toJSON (i : NodeInfo) : JSON :=
  .obj [("name", .str i.Name), ("roles", Slice.toJSON JSON.str i.Roles),
        ("ready", .bool i.Ready), ("cpuCapacity", .str i.CPUCap),
        ("memCapacity", .str i.MemCap)]

/-- The encoding of a NodeMetrics, by its field tags. -/
def NodeMetrics.toJSON (m : NodeMetrics) : JSON :=
  .obj [("name", .str m.Name), ("cpu", .str m.CPU), ("memory", .str m.Mem)]

/-- The encoding of a PodInfo, by its field tags. -/
def PodInfo.toJSON (p : PodInfo) : JSON :=
  .obj [("name", .str p.Name), ("namespace", .str p.Namespace),
        ("phase", .str p.Phase), ("restarts", .num p.Restarts),
        ("node", .str p.Node)]

/-- The encoding of a DeploymentInfo, by its field tags. -/
def DeploymentInfo.toJSON (d : DeploymentInfo) : JSON :=
  .obj [("name", .str d.Name), ("namespace", .str d.Namespace),
        ("desired", .num d.Desired), ("ready", .num d.Ready)]

/-- The encoding of a MetricsResponse: the three plain fields are always
written, the field tagged omitempty only when its length is not zero. -/
def MetricsResponse.toJSON (r : MetricsResponse) : JSON :=
  .obj ([("nodes", Slice.toJSON NodeInfo.toJSON r.Nodes),
         ("pods", Slice.toJSON PodInfo.toJSON r.Pods),
         ("deployments", Slice.toJSON DeploymentInfo.toJSON r.Deployments)] ++
        (if r.NodeMetrics.len = 0 then []
         else [("nodeMetrics", Slice.toJSON NodeMetrics.toJSON r.NodeMetrics)]))

/-! ## The handler -/

/-- The cluster client, by the outcome of each of its three list calls in
this request: an error, or the items of the returned list. -/
structure K8sInterface where
  Nodes : Except String (List Node)
  Pods : Except String (List Pod)
  Deployments : Except String (List Deployment)

/-- The metrics client, by the outcome of its list call in this request. -/
structure MetricsClientset where
  NodeMetricses : Except String (List RawNodeMetrics)

/-- What the handler wrote to the response writer. -/
structure HTTPReply where
  Header : List (String × String)
  Status : Nat
  Body : String
  deriving DecidableEq, Repr

/-- The value of the variable resp when the handler reaches the encoder
(main.go 93-119): four guarded loops, each appending to its own field. -/
def collect (k8s : K8sInterface) (mc : Option MetricsClientset) : MetricsResponse :=
  let resp : MetricsResponse :=
    { Nodes := none, Pods := none, Deployments := none, NodeMetrics := none }
  let resp :=
    match k8s.Nodes with
    | .ok items =>
      items.foldl (fun resp n => { resp with Nodes := resp.Nodes.append (buildNodeInfo n) }) resp
    | .error _ => resp
  let resp :=
    match k8s.Pods with
    | .ok items =>
      items.foldl (fun resp p => { resp with Pods := resp.Pods.append (buildPodInfo p) }) resp
    | .error _ => resp
  let resp :=
    match k8s.Deployments with
    | .ok items =>
      items.foldl
        (fun resp d => { resp with Deployments := resp.Deployments.append (buildDeploymentInfo d) })
        resp
    | .error _ => resp
  match mc with
  | some c =>
    match c.NodeMetricses with
    | .ok items =>
      items.foldl
        (fun resp m => { resp with NodeMetrics := resp.NodeMetrics.append (buildNodeMetrics m) })
        resp
    | .error _ => resp
  | none => resp

/-- The function metricsHandler (main.go 90-124): the content type is set,
the encoder writes the document followed by a newline, and the first write
sends the default status. -/
def metricsHandler (k8s : K8sInterface) (mc : Option MetricsClientset) : HTTPReply :=
  let resp := collect k8s mc
  { Header := [("Content-Type", "application/json")]
    Status := 200
    Body := resp.toJSON.render ++ "\n" }

/-! ## Auxiliary functions used in the statements and proofs -/

/-- The role that one label key contributes, if the key is recognized. -/
def roleOf (k : String) : Option String :=
  if k = controlPlaneKey ∨ k = masterKey then some "control-plane"
  else if k = workerKey then some "worker"
  else none

/-- The roles contributed by the labels, in iteration order. -/
def roleNames (labels : List (String × String)) : List String :=
  labels.filterMap (fun kv => roleOf kv.1)

/-- The slice that successive appends of the elements build from nil. -/
def Slice.ofAppends {α : Type} : List α → Slice α
  | [] => none
  | x :: xs => some (x :: xs)

/-- The slice that one guarded loop of the handler leaves in its field:
nil when the call failed, the appended translations otherwise. -/
def gathered {α β : Type} (f : α → β) : Except String (List α) → Slice β
  | .error _ => none
  | .ok items => Slice.ofAppends (items.map f)

/-- The exact sum of the restart counters of a pod. -/
def Pod.restartSum (p : Pod) : Int :=
  (p.Status.ContainerStatuses.map (fun cs => cs.RestartCount)).sum

/-- The keys of the label map of a node. -/
def Node.labelKeys (n : Node) : List String := n.Labels.map Prod.fst

/-! ## Concrete inputs -/

/-- A control-plane node as a current cluster reports it. -/
def exNode : Node :=
  { Name := "node-a"
    Labels := [(controlPlaneKey, ""), ("kubernetes.io/hostname", "node-a")]
    Status :=
      { Capacity := { Cpu := "4", Memory := "16Gi" }
        Conditions := [⟨"MemoryPressure", "False"⟩, ⟨"Ready", "True"⟩] } }

/-- A control-plane node carrying both synonym labels of its role. -/
def dupRoleNode : Node :=
  { Name := "node-b"
    Labels := [(controlPlaneKey, ""), (masterKey, "")]
    Status := { Capacity := { Cpu := "4", Memory := "16Gi" }, Conditions := [] } }

/-- A node labelled as worker and as control plane. -/
def twoRoleNode : Node :=
  { Name := "node-c"
    Labels := [(workerKey, ""), (controlPlaneKey, "")]
    Status := { Capacity := { Cpu := "2", Memory := "8Gi" }, Conditions := [] } }

/-- The labels of twoRoleNode in the other iteration order. -/
def twoRoleLabelsSwapped : List (String × String) :=
  [(controlPlaneKey, ""), (workerKey, "")]

/-- A node with one label, of an unrecognized key. -/
def unlabelledNode : Node :=
  { Name := "node-e"
    Labels := [("kubernetes.io/os", "linux")]
    Status := { Capacity := { Cpu := "2", Memory := "8Gi" }, Conditions := [] } }

/-- A node whose condition list holds two entries of type Ready. -/
def twoReadyNode : Node :=
  { Name := "node-d"
    Labels := []
    Status :=
      { Capacity := { Cpu := "2", Memory := "8Gi" }
        Conditions := [⟨"Ready", "True"⟩, ⟨"Ready", "False"⟩] } }

/-- A pod with two containers whose restart counters sum to 2^31. -/
def overflowPod : Pod :=
  { Name := "pod-a"
    Namespace := "default"
    Spec := { NodeName := "node-a" }
    Status := { Phase := "Running", ContainerStatuses := [⟨2147483647⟩, ⟨1⟩] } }

/-- A pod with two containers, restarted 3 and 4 times. -/
def exPod : Pod :=
  { Name := "pod-b"
    Namespace := "default"
    Spec := { NodeName := "node-a" }
    Status := { Phase := "Running", ContainerStatuses := [⟨3⟩, ⟨4⟩] } }

/-- A deployment asking for three replicas, two of them ready. -/
def exDeployment : Deployment :=
  { Name := "web", Namespace := "default", Spec := { Replicas := some 3 },
    Status := { ReadyReplicas := 2 } }

/-- A deployment whose replica count is unset. -/
def unsetDeployment : Deployment :=
  { Name := "web", Namespace := "default", Spec := { Replicas := none },
    Status := { ReadyReplicas := 0 } }

/-- A cluster client all of whose list calls fail. -/
def failingCluster : K8sInterface :=
  { Nodes := .error "unavailable", Pods := .error "unavailable",
    Deployments := .error "unavailable" }

/-- A metrics client whose list call fails. -/
def failingMetrics : MetricsClientset := { NodeMetricses := .error "unavailable" }

/-! ## Lemmas on slices -/

theorem foldl_append_some {α : Type} (xs ys : List α) :
    xs.foldl Slice.append (some ys) = some (ys ++ xs) := by
  induction xs generalizing ys with
  | nil => simp
  | cons x xs ih => simp [Slice.append, ih]

theorem foldl_append_none {α : Type} (xs : List α) :
    xs.foldl Slice.append none = Slice.ofAppends xs := by
  cases xs with
  | nil => rfl
  | cons x xs => simp [Slice.append, Slice.ofAppends, foldl_append_some]

/-! ## Lemmas on buildNodeInfo -/

theorem labelStep_roles (info : NodeInfo) (kv : String × String) :
    (labelStep info kv).Roles = (roleOf kv.1).elim info.Roles info.Roles.append := by
  unfold labelStep roleOf
  split_ifs <;> rfl

theorem labelStep_ready (info : NodeInfo) (kv : String × String) :
    (labelStep info kv).Ready = info.Ready := by
  unfold labelStep
  split_ifs <;> rfl

theorem foldl_labelStep_roles (labels : List (String × String)) (info : NodeInfo) :
    (labels.foldl labelStep info).Roles = (roleNames labels).foldl Slice.append info.Roles := by
  induction labels generalizing info with
  | nil => rfl
  | cons kv rest ih =>
    rw [List.foldl_cons, ih, labelStep_roles]
    unfold roleNames
    cases h : roleOf kv.1 <;> simp [List.filterMap_cons, h]

theorem foldl_labelStep_ready (labels : List (String × String)) (info : NodeInfo) :
    (labels.foldl labelStep info).Ready = info.Ready := by
  induction labels generalizing info with
  | nil => rfl
  | cons kv rest ih => rw [List.foldl_cons, ih, labelStep_ready]

theorem foldl_conditionStep_roles (cs : List NodeCondition) (info : NodeInfo) :
    (cs.foldl conditionStep info).Roles = info.Roles := by
  induction cs generalizing info with
  | nil => rfl
  | cons c rest ih =>
    rw [List.foldl_cons, ih]
    unfold conditionStep
    split_ifs <;> rfl

/-- The roles of a node, in closed form. -/
theorem buildNodeInfo_roles (n : Node) :
    (buildNodeInfo n).Roles =
      some (if roleNames n.Labels = [] then ["worker"] else roleNames n.Labels) := by
  have h : (n.Labels.foldl labelStep
      (n.Status.Conditions.foldl conditionStep
        { Name := n.Name, Roles := none, Ready := false,
          CPUCap := n.Status.Capacity.Cpu, MemCap := n.Status.Capacity.Memory })).Roles =
      Slice.ofAppends (roleNames n.Labels) := by
    rw [foldl_labelStep_roles, foldl_conditionStep_roles, foldl_append_none]
  unfold buildNodeInfo
  simp only []
  cases hr : roleNames n.Labels with
  | nil =>
    rw [hr] at h
    simp [h, Slice.ofAppends, Slice.len]
  | cons r rs =>
    rw [hr] at h
    simp [h, Slice.ofAppends, Slice.len]

/-- The readiness flag after the scan of the conditions. -/
theorem foldl_conditionStep_ready (cs : List NodeCondition) (info : NodeInfo) :
    (cs.foldl conditionStep info).Ready =
      match (cs.filter (fun c => c.CondType = NodeReady)).getLast? with
      | some c => decide (c.Status = ConditionTrue)
      | none => info.Ready := by
  induction cs using List.reverseRecOn with
  | nil => rfl
  | append_singleton l c ih =>
    rw [List.foldl_append, List.foldl_cons, List.foldl_nil, List.filter_append]
    by_cases hc : c.CondType = NodeReady
    · simp [conditionStep, hc, List.filter_cons]
    · simp [conditionStep, hc, List.filter_cons, ih]

/-- The readiness flag of a node, in closed form. -/
theorem buildNodeInfo_ready (n : Node) :
    (buildNodeInfo n).Ready =
      match (n.Status.Conditions.filter (fun c => c.CondType = NodeReady)).getLast? with
      | some c => decide (c.Status = ConditionTrue)
      | none => false := by
  have h := foldl_conditionStep_ready n.Status.Conditions
    { Name := n.Name, Roles := none, Ready := false,
      CPUCap := n.Status.Capacity.Cpu, MemCap := n.Status.Capacity.Memory }
  unfold buildNodeInfo
  simp only []
  split_ifs <;> simp only [foldl_labelStep_ready] <;> exact h

theorem labelStep_frame (info : NodeInfo) (kv : String × String) :
    labelStep info kv = { info with Roles := (labelStep info kv).Roles } := by
  unfold labelStep
  split_ifs <;> rfl

theorem foldl_labelStep_frame (labels : List (String × String)) (info : NodeInfo) :
    labels.foldl labelStep info = { info with Roles := (labels.foldl labelStep info).Roles } := by
  induction labels generalizing info with
  | nil => rfl
  | cons kv rest ih =>
    rw [List.foldl_cons, ih, labelStep_frame]

theorem conditionStep_frame (info : NodeInfo) (c : NodeCondition) :
    conditionStep info c = { info with Ready := (conditionStep info c).Ready } := by
  unfold conditionStep
  split_ifs <;> rfl

theorem foldl_conditionStep_frame (cs : List NodeCondition) (info : NodeInfo) :
    cs.foldl conditionStep info = { info with Ready := (cs.foldl conditionStep info).Ready } := by
  induction cs generalizing info with
  | nil => rfl
  | cons c rest ih =>
    rw [List.foldl_cons, ih, conditionStep_frame]

/-- The record built for a node: every field but Roles is independent of
the labels. -/
theorem buildNodeInfo_eq (n : Node) :
    buildNodeInfo n =
      { Name := n.Name
        Roles := (buildNodeInfo n).Roles
        Ready := (buildNodeInfo n).Ready
        CPUCap := n.Status.Capacity.Cpu
        MemCap := n.Status.Capacity.Memory } := by
  unfold buildNodeInfo
  simp only []
  split_ifs <;>
    · rw [foldl_labelStep_frame, foldl_conditionStep_frame]

/-! ## Lemmas on the recognized label keys -/

theorem roleOf_eq_worker (k : String) : roleOf k = some "worker" ↔ k = workerKey := by
  unfold roleOf
  constructor
  · intro h
    split_ifs at h with h1 h2
    · exact absurd h (by decide)
    · exact h2
  · intro h
    subst h
    decide

theorem roleOf_eq_controlPlane (k : String) :
    roleOf k = some "control-plane" ↔ k = controlPlaneKey ∨ k = masterKey := by
  unfold roleOf
  constructor
  · intro h
    split_ifs at h with h1 h2
    · exact h1
    · exact absurd h (by decide)
  · intro h
    rw [if_pos h]

theorem roleOf_range (k r : String) (h : roleOf k = some r) :
    r = "control-plane" ∨ r = "worker" := by
  unfold roleOf at h
  split_ifs at h with h1 h2
  · exact Or.inl (Option.some.inj h).symm
  · exact Or.inr (Option.some.inj h).symm

theorem mem_roleNames (labels : List (String × String)) (r : String) :
    r ∈ roleNames labels ↔ ∃ k ∈ labels.map Prod.fst, roleOf k = some r := by
  unfold roleNames
  simp [List.mem_filterMap]

theorem mem_roleNames_worker (labels : List (String × String)) :
    "worker" ∈ roleNames labels ↔ workerKey ∈ labels.map Prod.fst := by
  rw [mem_roleNames]
  constructor
  · rintro ⟨k, hk, hr⟩
    rwa [(roleOf_eq_worker k).1 hr] at hk
  · intro h
    exact ⟨workerKey, h, (roleOf_eq_worker _).2 rfl⟩

theorem mem_roleNames_controlPlane (labels : List (String × String)) :
    "control-plane" ∈ roleNames labels ↔
      controlPlaneKey ∈ labels.map Prod.fst ∨ masterKey ∈ labels.map Prod.fst := by
  rw [mem_roleNames]
  constructor
  · rintro ⟨k, hk, hr⟩
    rcases (roleOf_eq_controlPlane k).1 hr with h | h
    · exact Or.inl (h ▸ hk)
    · exact Or.inr (h ▸ hk)
  · rintro (h | h)
    · exact ⟨controlPlaneKey, h, (roleOf_eq_controlPlane _).2 (Or.inl rfl)⟩
    · exact ⟨masterKey, h, (roleOf_eq_controlPlane _).2 (Or.inr rfl)⟩

theorem roleNames_range (labels : List (String × String)) (r : String)
    (h : r ∈ roleNames labels) : r = "control-plane" ∨ r = "worker" := by
  obtain ⟨k, _, hr⟩ := (mem_roleNames labels r).1 h
  exact roleOf_range k r hr

theorem roleNames_eq_nil_iff (labels : List (String × String)) :
    roleNames labels = [] ↔
      controlPlaneKey ∉ labels.map Prod.fst ∧ masterKey ∉ labels.map Prod.fst ∧
        workerKey ∉ labels.map Prod.fst := by
  constructor
  · intro h
    have hw := mem_roleNames_worker labels
    have hc := mem_roleNames_controlPlane labels
    rw [h] at hw hc
    simp only [List.not_mem_nil, false_iff, not_or] at hw hc
    exact ⟨hc.1, hc.2, hw⟩
  · rintro ⟨h1, h2, h3⟩
    rw [List.eq_nil_iff_forall_not_mem]
    intro r hr
    rcases roleNames_range labels r hr with rfl | rfl
    · rcases (mem_roleNames_controlPlane labels).1 hr with h | h
      · exact h1 h
      · exact h2 h
    · exact h3 ((mem_roleNames_worker labels).1 hr)

theorem count_worker_roleNames (labels : List (String × String)) :
    (roleNames labels).count "worker" = (labels.map Prod.fst).count workerKey := by
  induction labels with
  | nil => rfl
  | cons kv rest ih =>
    unfold roleNames at ih ⊢
    rw [List.map_cons, List.count_cons, List.filterMap_cons]
    by_cases hk : kv.1 = workerKey
    · rw [(roleOf_eq_worker kv.1).2 hk]
      simp [List.count_cons, ih, hk]
    · have hne : roleOf kv.1 ≠ some "worker" := fun h => hk ((roleOf_eq_worker _).1 h)
      cases hr : roleOf kv.1 with
      | none => simp [ih, hk]
      | some r =>
        have : r ≠ "worker" := fun h => hne (by rw [hr, h])
        simp [List.count_cons, ih, hk, this]

theorem count_controlPlane_roleNames (labels : List (String × String)) :
    (roleNames labels).count "control-plane" =
      (labels.map Prod.fst).count controlPlaneKey + (labels.map Prod.fst).count masterKey := by
  induction labels with
  | nil => rfl
  | cons kv rest ih =>
    unfold roleNames at ih ⊢
    rw [List.map_cons, List.count_cons, List.count_cons, List.filterMap_cons]
    by_cases h1 : kv.1 = controlPlaneKey
    · rw [(roleOf_eq_controlPlane kv.1).2 (Or.inl h1)]
      have h2 : ¬ controlPlaneKey = masterKey := by decide
      simp [List.count_cons, ih, h1, h2]
      omega
    · by_cases h2 : kv.1 = masterKey
      · rw [(roleOf_eq_controlPlane kv.1).2 (Or.inr h2)]
        have h3 : ¬ masterKey = controlPlaneKey := by decide
        simp [List.count_cons, ih, h2, h3]
        omega
      · have hne : roleOf kv.1 ≠ some "control-plane" := fun h =>
          (roleOf_eq_controlPlane _).1 h |>.elim h1 h2
        cases hr : roleOf kv.1 with
        | none => simp [ih, h1, h2]
        | some r =>
          have : r ≠ "control-plane" := fun h => hne (by rw [hr, h])
          simp [List.count_cons, ih, h1, h2, this]

/-- The elements of the roles of a node. -/
theorem buildNodeInfo_roles_elems (n : Node) :
    (buildNodeInfo n).Roles.elems =
      if roleNames n.Labels = [] then ["worker"] else roleNames n.Labels := by
  rw [buildNodeInfo_roles]
  rfl

/-! ## Lemmas on buildPodInfo -/

theorem wrapInt32_add_left (a b : Int) : wrapInt32 (wrapInt32 a + b) = wrapInt32 (a + b) := by
  unfold wrapInt32
  omega

theorem wrapInt32_of_isInt32 (a : Int) (h : isInt32 a) : wrapInt32 a = a := by
  unfold isInt32 at h
  unfold wrapInt32
  omega

theorem foldl_restarts (cs : List ContainerStatus) (a : Int) (ha : wrapInt32 a = a) :
    cs.foldl (fun restarts c => wrapInt32 (restarts + c.RestartCount)) a =
      wrapInt32 (a + (cs.map (fun c => c.RestartCount)).sum) := by
  induction cs generalizing a with
  | nil => simp [ha]
  | cons c rest ih =>
    rw [List.foldl_cons, ih _ (by unfold wrapInt32; omega), wrapInt32_add_left,
      List.map_cons, List.sum_cons, add_assoc]

/-- The restart count of a pod, in closed form. -/
theorem buildPodInfo_restarts (p : Pod) :
    (buildPodInfo p).Restarts = wrapInt32 p.restartSum := by
  unfold buildPodInfo Pod.restartSum
  simp only []
  rw [foldl_restarts _ 0 (by decide), zero_add]

/-! ## Lemmas on the handler -/

theorem foldl_nodes {α : Type} (f : α → NodeInfo) (items : List α) (resp : MetricsResponse) :
    items.foldl (fun resp n => { resp with Nodes := resp.Nodes.append (f n) }) resp =
      { resp with Nodes := (items.map f).foldl Slice.append resp.Nodes } := by
  induction items generalizing resp with
  | nil => rfl
  | cons x rest ih => rw [List.foldl_cons, ih]; rfl

theorem foldl_pods {α : Type} (f : α → PodInfo) (items : List α) (resp : MetricsResponse) :
    items.foldl (fun resp p => { resp with Pods := resp.Pods.append (f p) }) resp =
      { resp with Pods := (items.map f).foldl Slice.append resp.Pods } := by
  induction items generalizing resp with
  | nil => rfl
  | cons x rest ih => rw [List.foldl_cons, ih]; rfl

theorem foldl_deployments {α : Type} (f : α → DeploymentInfo) (items : List α)
    (resp : MetricsResponse) :
    items.foldl (fun resp d => { resp with Deployments := resp.Deployments.append (f d) }) resp =
      { resp with Deployments := (items.map f).foldl Slice.append resp.Deployments } := by
  induction items generalizing resp with
  | nil => rfl
  | cons x rest ih => rw [List.foldl_cons, ih]; rfl

theorem foldl_nodeMetrics {α : Type} (f : α → NodeMetrics) (items : List α)
    (resp : MetricsResponse) :
    items.foldl (fun resp m => { resp with NodeMetrics := resp.NodeMetrics.append (f m) }) resp =
      { resp with NodeMetrics := (items.map f).foldl Slice.append resp.NodeMetrics } := by
  induction items generalizing resp with
  | nil => rfl
  | cons x rest ih => rw [List.foldl_cons, ih]; rfl

/-- The response assembled by the handler, field by field. -/
theorem collect_eq (k8s : K8sInterface) (mc : Option MetricsClientset) :
    collect k8s mc =
      { Nodes := gathered buildNodeInfo k8s.Nodes
        Pods := gathered buildPodInfo k8s.Pods
        Deployments := gathered buildDeploymentInfo k8s.Deployments
        NodeMetrics :=
          match mc with
          | some c => gathered buildNodeMetrics c.NodeMetricses
          | none => none } := by
  obtain ⟨qn, qp, qd⟩ := k8s
  unfold collect
  simp only [foldl_nodes, foldl_pods, foldl_deployments, foldl_nodeMetrics]
  cases qn <;> cases qp <;> cases qd <;> cases mc with
  | none => simp [gathered, foldl_append_none]
  | some c =>
    obtain ⟨qm⟩ := c
    cases qm <;> simp [gathered, foldl_append_none]

/-! ## Roles of a node (claims C3, C4, C6) -/

/-- C3, counterexample: a node with distinct label keys that carries both
synonym labels of the control-plane role gets the role twice, so its Roles
sequence has a duplicate entry. -/
theorem C3_duplicate_role :
    dupRoleNode.WF ∧
    (buildNodeInfo dupRoleNode).Roles = some ["control-plane", "control-plane"] ∧
    ¬ (buildNodeInfo dupRoleNode).Roles.elems.Nodup := by
  decide

/-- C3, amended: for every node whose label map has distinct keys, Roles
holds "worker" at most once, and Roles is free of duplicates exactly when the
labels do not hold both synonym keys of the control-plane role; when both are
present, "control-plane" occurs exactly twice. -/
theorem C3_roles_nodup_iff (n : Node) (hwf : n.WF) :
    (buildNodeInfo n).Roles.elems.count "worker" ≤ 1 ∧
    ((buildNodeInfo n).Roles.elems.Nodup ↔
      ¬ (controlPlaneKey ∈ n.labelKeys ∧ masterKey ∈ n.labelKeys)) ∧
    (controlPlaneKey ∈ n.labelKeys ∧ masterKey ∈ n.labelKeys →
      (buildNodeInfo n).Roles.elems.count "control-plane" = 2) := by
  unfold Node.WF at hwf
  unfold Node.labelKeys
  rw [buildNodeInfo_roles_elems]
  have hcw := count_worker_roleNames n.Labels
  have hcc := count_controlPlane_roleNames n.Labels
  have hle : ∀ k, (n.Labels.map Prod.fst).count k ≤ 1 := fun k =>
    List.nodup_iff_count_le_one.1 hwf k
  by_cases hr : roleNames n.Labels = []
  · have hnil := (roleNames_eq_nil_iff n.Labels).1 hr
    simp only [hr, if_true]
    refine ⟨by decide, ?_, ?_⟩
    · constructor
      · intro _ h
        exact hnil.1 h.1
      · intro _
        decide
    · intro h
      exact absurd h.1 hnil.1
  · simp only [hr, if_false]
    refine ⟨by rw [hcw]; exact hle _, ?_, ?_⟩
    · constructor
      · intro hnd h
        have h1 := List.count_pos_iff.2 h.1
        have h2 := List.count_pos_iff.2 h.2
        have h3 := List.nodup_iff_count_le_one.1 hnd "control-plane"
        omega
      · intro hno
        rw [List.nodup_iff_count_le_one]
        intro a
        by_cases ha : a ∈ roleNames n.Labels
        · rcases roleNames_range n.Labels a ha with rfl | rfl
          · rw [hcc]
            by_cases h1 : controlPlaneKey ∈ n.Labels.map Prod.fst
            · have h2 : masterKey ∉ n.Labels.map Prod.fst := fun h2 => hno ⟨h1, h2⟩
              rw [List.count_eq_zero_of_not_mem h2]
              exact hle _
            · rw [List.count_eq_zero_of_not_mem h1, zero_add]
              exact hle _
          · rw [hcw]
            exact hle _
        · rw [List.count_eq_zero_of_not_mem ha]
          omega
    · intro h
      rw [hcc, List.count_eq_one_of_mem hwf h.1, List.count_eq_one_of_mem hwf h.2]

/-- C3, witness: the amended statement at a node with one role label. -/
theorem C3_roles_nodup_witness :
    exNode.WF ∧ (buildNodeInfo exNode).Roles.elems.Nodup :=
  ⟨by decide, (C3_roles_nodup_iff exNode (by decide)).2.1.2 (by decide)⟩

theorem perm_eq_of_forall_eq {α : Type} (a : α) (l₁ l₂ : List α) (h : l₁.Perm l₂)
    (hall : ∀ x ∈ l₁, x = a) : l₁ = l₂ := by
  have h1 : l₁ = List.replicate l₁.length a := List.eq_replicate_of_mem hall
  rw [h1] at h
  exact h1.trans (List.replicate_perm.1 h)

/-- C4, counterexample: the two iteration orders of one label map with
distinct keys give different Roles sequences and different JSON text. -/
theorem C4_order_dependent :
    twoRoleNode.WF ∧ twoRoleNode.Labels.Perm twoRoleLabelsSwapped ∧
    (buildNodeInfo twoRoleNode).Roles = some ["worker", "control-plane"] ∧
    (buildNodeInfo { twoRoleNode with Labels := twoRoleLabelsSwapped }).Roles =
      some ["control-plane", "worker"] ∧
    (buildNodeInfo twoRoleNode).toJSON.render ≠
      (buildNodeInfo { twoRoleNode with Labels := twoRoleLabelsSwapped }).toJSON.render :=
  ⟨by decide, List.Perm.swap _ _ _, by decide, by decide, by decide⟩

/-- C4, amended: for every two iteration orders of the label map of a node,
the two Roles sequences are permutations of each other and all other fields
of the record agree; the two records, and so their JSON text, are identical
whenever the labels do not hold both the worker key and a key of the
control-plane role. -/
theorem C4_roles_perm (n : Node) (labels' : List (String × String))
    (h : n.Labels.Perm labels') :
    (buildNodeInfo n).Roles.elems.Perm (buildNodeInfo { n with Labels := labels' }).Roles.elems ∧
    (buildNodeInfo n).Name = (buildNodeInfo { n with Labels := labels' }).Name ∧
    (buildNodeInfo n).Ready = (buildNodeInfo { n with Labels := labels' }).Ready ∧
    (buildNodeInfo n).CPUCap = (buildNodeInfo { n with Labels := labels' }).CPUCap ∧
    (buildNodeInfo n).MemCap = (buildNodeInfo { n with Labels := labels' }).MemCap ∧
    (¬ (workerKey ∈ n.labelKeys ∧ (controlPlaneKey ∈ n.labelKeys ∨ masterKey ∈ n.labelKeys)) →
      buildNodeInfo n = buildNodeInfo { n with Labels := labels' } ∧
      (buildNodeInfo n).toJSON.render =
        (buildNodeInfo { n with Labels := labels' }).toJSON.render) := by
  have hp : (roleNames n.Labels).Perm (roleNames labels') := List.Perm.filterMap _ h
  have hnil : roleNames n.Labels = [] ↔ roleNames labels' = [] :=
    ⟨fun e => List.Perm.eq_nil (e ▸ hp.symm), fun e => List.Perm.eq_nil (e ▸ hp)⟩
  have hready : (buildNodeInfo n).Ready = (buildNodeInfo { n with Labels := labels' }).Ready := by
    rw [buildNodeInfo_ready, buildNodeInfo_ready]
  have hname : ∀ m : Node, (buildNodeInfo m).Name = m.Name := fun m => by
    rw [buildNodeInfo_eq]
  have hcpu : ∀ m : Node, (buildNodeInfo m).CPUCap = m.Status.Capacity.Cpu := fun m => by
    rw [buildNodeInfo_eq]
  have hmem : ∀ m : Node, (buildNodeInfo m).MemCap = m.Status.Capacity.Memory := fun m => by
    rw [buildNodeInfo_eq]
  refine ⟨?_, by rw [hname, hname], hready, by rw [hcpu, hcpu], by rw [hmem, hmem], ?_⟩
  · rw [buildNodeInfo_roles_elems, buildNodeInfo_roles_elems]
    by_cases hr : roleNames n.Labels = []
    · simp [hr, hnil.1 hr]
    · have hr' : ¬ roleNames labels' = [] := fun e => hr (hnil.2 e)
      simpa [hr, hr'] using hp
  · intro hno
    have heq : roleNames n.Labels = roleNames labels' := by
      unfold Node.labelKeys at hno
      by_cases hw : workerKey ∈ n.Labels.map Prod.fst
      · refine perm_eq_of_forall_eq "worker" _ _ hp ?_
        intro x hx
        rcases roleNames_range n.Labels x hx with rfl | rfl
        · exact absurd ⟨hw, (mem_roleNames_controlPlane n.Labels).1 hx⟩ hno
        · rfl
      · refine perm_eq_of_forall_eq "control-plane" _ _ hp ?_
        intro x hx
        rcases roleNames_range n.Labels x hx with rfl | rfl
        · rfl
        · exact absurd ((mem_roleNames_worker n.Labels).1 hx) hw
    have hrec : buildNodeInfo n = buildNodeInfo { n with Labels := labels' } := by
      rw [buildNodeInfo_eq n, buildNodeInfo_eq { n with Labels := labels' }, ← hready,
        buildNodeInfo_roles, buildNodeInfo_roles, heq]
    exact ⟨hrec, by rw [hrec]⟩

/-- C4, witness: the amended statement at a node with one role label and
its two labels taken in the other order. -/
theorem C4_roles_perm_witness :
    exNode.Labels.Perm [("kubernetes.io/hostname", "node-a"), (controlPlaneKey, "")] ∧
    buildNodeInfo exNode =
      buildNodeInfo
        { exNode with Labels := [("kubernetes.io/hostname", "node-a"), (controlPlaneKey, "")] } :=
  ⟨List.Perm.swap _ _ _,
   ((C4_roles_perm exNode [("kubernetes.io/hostname", "node-a"), (controlPlaneKey, "")]
      (List.Perm.swap _ _ _)).2.2.2.2.2 (by decide)).1⟩

theorem roleNames_eq_of_keys (l₁ l₂ : List (String × String))
    (h : l₁.map Prod.fst = l₂.map Prod.fst) : roleNames l₁ = roleNames l₂ := by
  have key : ∀ l : List (String × String), roleNames l = (l.map Prod.fst).filterMap roleOf := by
    intro l
    unfold roleNames
    rw [List.filterMap_map]
    rfl
  rw [key, key, h]

theorem roleNames_filter (labels : List (String × String)) (p : String × String → Bool)
    (hp : ∀ kv ∈ labels,
      kv.1 = controlPlaneKey ∨ kv.1 = masterKey ∨ kv.1 = workerKey → p kv = true) :
    roleNames (labels.filter p) = roleNames labels := by
  induction labels with
  | nil => rfl
  | cons kv rest ih =>
    have ih' := ih (fun kv' hkv' => hp kv' (List.mem_cons_of_mem _ hkv'))
    unfold roleNames at ih' ⊢
    by_cases hk : p kv = true
    · rw [List.filter_cons_of_pos hk, List.filterMap_cons, List.filterMap_cons, ih']
    · have hnone : roleOf kv.1 = none := by
        cases hr : roleOf kv.1 with
        | none => rfl
        | some r =>
          exfalso
          apply hk
          apply hp kv (List.mem_cons_self _ _)
          rcases roleOf_range _ _ hr with rfl | rfl
          · rcases (roleOf_eq_controlPlane _).1 hr with h | h
            · exact Or.inl h
            · exact Or.inr (Or.inl h)
          · exact Or.inr (Or.inr ((roleOf_eq_worker _).1 hr))
      rw [List.filter_cons_of_neg hk, List.filterMap_cons, hnone, ih']

/-- C6: the elements of Roles are fixed by the recognized label keys that
are present. Roles holds "control-plane" exactly when one of the two keys of
that role is present; when some recognized key is present it holds "worker"
exactly when the worker key is present; when none is present (an empty label
map included) Roles is exactly the one-element sequence "worker". Every
element is one of the two role names, Roles is never nil nor empty, two nodes
with the same label keys get the same Roles whatever the label values, and
dropping labels with unrecognized keys leaves Roles unchanged. -/
theorem C6_roles_by_keys (n : Node) :
    ("control-plane" ∈ (buildNodeInfo n).Roles.elems ↔
      controlPlaneKey ∈ n.labelKeys ∨ masterKey ∈ n.labelKeys) ∧
    (controlPlaneKey ∈ n.labelKeys ∨ masterKey ∈ n.labelKeys ∨ workerKey ∈ n.labelKeys →
      ("worker" ∈ (buildNodeInfo n).Roles.elems ↔ workerKey ∈ n.labelKeys)) ∧
    (controlPlaneKey ∉ n.labelKeys ∧ masterKey ∉ n.labelKeys ∧ workerKey ∉ n.labelKeys →
      (buildNodeInfo n).Roles = some ["worker"]) ∧
    (n.Labels = [] → (buildNodeInfo n).Roles = some ["worker"]) ∧
    (∀ r ∈ (buildNodeInfo n).Roles.elems, r = "control-plane" ∨ r = "worker") ∧
    (buildNodeInfo n).Roles ≠ none ∧
    (buildNodeInfo n).Roles.len ≠ 0 ∧
    (∀ m : Node, m.labelKeys = n.labelKeys → (buildNodeInfo m).Roles = (buildNodeInfo n).Roles) ∧
    (∀ p : String × String → Bool,
      (∀ kv ∈ n.Labels,
        kv.1 = controlPlaneKey ∨ kv.1 = masterKey ∨ kv.1 = workerKey → p kv = true) →
      (buildNodeInfo { n with Labels := n.Labels.filter p }).Roles = (buildNodeInfo n).Roles) := by
  unfold Node.labelKeys
  have hnil := roleNames_eq_nil_iff n.Labels
  refine ⟨?_, ?_, ?_, ?_, ?_, ?_, ?_, ?_, ?_⟩
  · rw [buildNodeInfo_roles_elems]
    by_cases hr : roleNames n.Labels = []
    · have h := hnil.1 hr
      simp only [hr, if_true]
      constructor
      · intro hm
        simp at hm
      · rintro (h1 | h1)
        · exact absurd h1 h.1
        · exact absurd h1 h.2.1
    · simp only [hr, if_false]
      exact mem_roleNames_controlPlane n.Labels
  · intro hsome
    rw [buildNodeInfo_roles_elems]
    have hr : ¬ roleNames n.Labels = [] := by
      intro e
      have h := hnil.1 e
      rcases hsome with h1 | h1 | h1
      · exact h.1 h1
      · exact h.2.1 h1
      · exact h.2.2 h1
    simp only [hr, if_false]
    exact mem_roleNames_worker n.Labels
  · intro hno
    rw [buildNodeInfo_roles, if_pos (hnil.2 hno)]
  · intro he
    rw [buildNodeInfo_roles, he]
    rfl
  · intro r hr
    rw [buildNodeInfo_roles_elems] at hr
    by_cases he : roleNames n.Labels = []
    · simp only [he, if_true, List.mem_singleton] at hr
      exact Or.inr hr
    · simp only [he, if_false] at hr
      exact roleNames_range n.Labels r hr
  · rw [buildNodeInfo_roles]
    exact Option.some_ne_none _
  · rw [buildNodeInfo_roles]
    by_cases he : roleNames n.Labels = []
    · simp [he, Slice.len]
    · simp [he, Slice.len]
  · intro m hm
    rw [buildNodeInfo_roles, buildNodeInfo_roles, roleNames_eq_of_keys m.Labels n.Labels hm]
  · intro p hp
    rw [buildNodeInfo_roles, buildNodeInfo_roles]
    simp only [roleNames_filter n.Labels p hp]

/-- C6, witness: the statement at a node with the control-plane label and
one unrecognized label. -/
theorem C6_roles_by_keys_witness :
    ("worker" ∈ (buildNodeInfo exNode).Roles.elems ↔ workerKey ∈ exNode.labelKeys) ∧
    (buildNodeInfo
      { exNode with
        Labels := exNode.Labels.filter (fun kv => decide (kv.1 = controlPlaneKey)) }).Roles =
      (buildNodeInfo exNode).Roles ∧
    (buildNodeInfo unlabelledNode).Roles = some ["worker"] :=
  ⟨(C6_roles_by_keys exNode).2.1 (by decide),
   (C6_roles_by_keys exNode).2.2.2.2.2.2.2.2 _ (by decide),
   (C6_roles_by_keys unlabelledNode).2.2.1 (by decide)⟩

/-! ## Readiness of a node (claim C5) -/

/-- C5, counterexample: a node whose condition list holds a Ready condition
of status True followed by a Ready condition of status False has Ready set to
false although a Ready condition with status True is in the list. -/
theorem C5_later_condition_overrides :
    (∃ c ∈ twoReadyNode.Status.Conditions, c.CondType = NodeReady ∧ c.Status = ConditionTrue) ∧
    (buildNodeInfo twoReadyNode).Ready = false :=
  ⟨⟨⟨"Ready", "True"⟩, by decide, by decide, by decide⟩, by decide⟩

/-- C5, amended: Ready is true exactly when the last condition of type
"Ready" in the condition list has status "True". Hence Ready true implies that
the list holds a Ready condition with status True; the converse holds when
the list holds at most one condition of type Ready; and an empty condition
list gives Ready false. -/
theorem C5_ready_iff_last (n : Node) :
    ((buildNodeInfo n).Ready = true ↔
      ∃ c, (n.Status.Conditions.filter (fun c => c.CondType = NodeReady)).getLast? = some c ∧
        c.Status = ConditionTrue) ∧
    ((buildNodeInfo n).Ready = true →
      ∃ c ∈ n.Status.Conditions, c.CondType = NodeReady ∧ c.Status = ConditionTrue) ∧
    ((n.Status.Conditions.filter (fun c => c.CondType = NodeReady)).length ≤ 1 →
      ((buildNodeInfo n).Ready = true ↔
        ∃ c ∈ n.Status.Conditions, c.CondType = NodeReady ∧ c.Status = ConditionTrue)) ∧
    (n.Status.Conditions = [] → (buildNodeInfo n).Ready = false) := by
  have hlast : (buildNodeInfo n).Ready = true ↔
      ∃ c, (n.Status.Conditions.filter (fun c => c.CondType = NodeReady)).getLast? = some c ∧
        c.Status = ConditionTrue := by
    rw [buildNodeInfo_ready]
    cases hl : (n.Status.Conditions.filter (fun c => c.CondType = NodeReady)).getLast? with
    | none => simp
    | some c => simp
  have hmem : (buildNodeInfo n).Ready = true →
      ∃ c ∈ n.Status.Conditions, c.CondType = NodeReady ∧ c.Status = ConditionTrue := by
    intro hr
    obtain ⟨c, hc, hs⟩ := hlast.1 hr
    have hin := List.mem_of_getLast?_eq_some hc
    rw [List.mem_filter] at hin
    exact ⟨c, hin.1, by simpa using hin.2, hs⟩
  refine ⟨hlast, hmem, ?_, ?_⟩
  · intro hlen
    refine ⟨hmem, ?_⟩
    rintro ⟨c, hc, ht, hs⟩
    apply hlast.2
    refine ⟨c, ?_, hs⟩
    have hin : c ∈ n.Status.Conditions.filter (fun c => c.CondType = NodeReady) := by
      rw [List.mem_filter]
      exact ⟨hc, by simpa using ht⟩
    match hL : n.Status.Conditions.filter (fun c => c.CondType = NodeReady), hin, hlen with
    | [], hin, _ => simp [hL] at hin
    | [d], hin, _ =>
      rw [hL] at hin
      simp only [List.mem_singleton] at hin
      rw [hin, hL]
      rfl
    | d :: e :: rest, _, hlen =>
      rw [hL] at hlen
      simp at hlen
  · intro he
    rw [buildNodeInfo_ready, he]
    rfl

/-- C5, witness: the amended statement at a node with a single Ready
condition, of status True. -/
theorem C5_ready_iff_last_witness :
    (exNode.Status.Conditions.filter (fun c => c.CondType = NodeReady)).length ≤ 1 ∧
    (buildNodeInfo exNode).Ready = true :=
  ⟨by decide,
   ((C5_ready_iff_last exNode).2.2.1 (by decide)).2
     ⟨⟨"Ready", "True"⟩, by decide, by decide, by decide⟩⟩

/-! ## Restart count of a pod (claim C7) -/

/-- C7, counterexample: two int32 restart counters 2147483647 and 1 have
the exact sum 2147483648, while the int32 accumulator wraps to -2147483648. -/
theorem C7_sum_wraps :
    overflowPod.WF ∧ overflowPod.restartSum = 2147483648 ∧
    (buildPodInfo overflowPod).Restarts = -2147483648 ∧
    (buildPodInfo overflowPod).Restarts ≠ overflowPod.restartSum := by
  refine ⟨?_, by decide, by decide, by decide⟩
  intro cs hcs
  simp only [overflowPod, List.mem_cons, List.mem_singleton, List.not_mem_nil, or_false] at hcs
  rcases hcs with rfl | rfl <;> decide

/-- C7, amended: Restarts is the sum of the RestartCount values of all
container statuses reduced to int32 by two's-complement wrap-around; it is the
exact integer sum whenever that sum lies in the int32 range, and it is 0 when
the pod has no container statuses. -/
theorem C7_restarts_wrapped_sum (p : Pod) :
    (buildPodInfo p).Restarts = wrapInt32 p.restartSum ∧
    (isInt32 p.restartSum → (buildPodInfo p).Restarts = p.restartSum) ∧
    (p.Status.ContainerStatuses = [] → (buildPodInfo p).Restarts = 0) := by
  refine ⟨buildPodInfo_restarts p, ?_, ?_⟩
  · intro h
    rw [buildPodInfo_restarts, wrapInt32_of_isInt32 _ h]
  · intro h
    rw [buildPodInfo_restarts]
    unfold Pod.restartSum
    rw [h]
    decide

/-- C7, witness: the amended statement at a pod with counters 3 and 4. -/
theorem C7_restarts_wrapped_sum_witness :
    isInt32 exPod.restartSum ∧ (buildPodInfo exPod).Restarts = 7 :=
  ⟨by decide, (C7_restarts_wrapped_sum exPod).2.1 (by decide)⟩

/-! ## Replica counts of a deployment (claim C8) -/

/-- C8: Desired is 0 when the replica count is unset and the pointed-to
value, unchanged, when it is set (an explicit 0 or a negative value included);
Name, Namespace and Ready are copied from the deployment. -/
theorem C8_desired_and_copies (d : Deployment) :
    (d.Spec.Replicas = none → (buildDeploymentInfo d).Desired = 0) ∧
    (∀ r : Int, d.Spec.Replicas = some r → (buildDeploymentInfo d).Desired = r) ∧
    (buildDeploymentInfo d).Name = d.Name ∧
    (buildDeploymentInfo d).Namespace = d.Namespace ∧
    (buildDeploymentInfo d).Ready = d.Status.ReadyReplicas := by
  refine ⟨?_, ?_, rfl, rfl, rfl⟩
  · intro h
    simp [buildDeploymentInfo, h]
  · intro r h
    simp [buildDeploymentInfo, h]

/-- C8, witness: the statement at a deployment with an unset replica count
and at one asking for three replicas. -/
theorem C8_desired_and_copies_witness :
    (buildDeploymentInfo unsetDeployment).Desired = 0 ∧
    (buildDeploymentInfo exDeployment).Desired = 3 :=
  ⟨(C8_desired_and_copies unsetDeployment).1 rfl,
   (C8_desired_and_copies exDeployment).2.1 3 rfl⟩

/-! ## Lemmas on the encoded response -/

theorem toJSON_field_nodes (r : MetricsResponse) :
    r.toJSON.field? "nodes" = some (Slice.toJSON NodeInfo.toJSON r.Nodes) := by
  simp [MetricsResponse.toJSON, JSON.field?]

theorem toJSON_field_pods (r : MetricsResponse) :
    r.toJSON.field? "pods" = some (Slice.toJSON PodInfo.toJSON r.Pods) := by
  simp [MetricsResponse.toJSON, JSON.field?]

theorem toJSON_field_deployments (r : MetricsResponse) :
    r.toJSON.field? "deployments" =
      some (Slice.toJSON DeploymentInfo.toJSON r.Deployments) := by
  simp [MetricsResponse.toJSON, JSON.field?]

theorem toJSON_field_nodeMetrics (r : MetricsResponse) :
    r.toJSON.field? "nodeMetrics" =
      if r.NodeMetrics.len = 0 then none
      else some (Slice.toJSON NodeMetrics.toJSON r.NodeMetrics) := by
  by_cases h : r.NodeMetrics.len = 0 <;> simp [MetricsResponse.toJSON, JSON.field?, h]

theorem toJSON_keys (r : MetricsResponse) :
    r.toJSON.keys =
      ["nodes", "pods", "deployments"] ++ if r.NodeMetrics.len = 0 then [] else ["nodeMetrics"] := by
  by_cases h : r.NodeMetrics.len = 0 <;> simp [MetricsResponse.toJSON, JSON.keys, h]

theorem anyHasKey_map {α : Type} (k : String) (f : α → JSON) (hf : ∀ x, (f x).hasKey k = false)
    (xs : List α) : anyHasKey k (xs.map f) = false := by
  induction xs with
  | nil => rfl
  | cons x rest ih => simp [anyHasKey, hf, ih]

theorem sliceToJSON_hasKey {α : Type} (k : String) (f : α → JSON)
    (hf : ∀ x, (f x).hasKey k = false) (s : Slice α) : (Slice.toJSON f s).hasKey k = false := by
  cases s with
  | none => rfl
  | some xs => simp [Slice.toJSON, JSON.hasKey, anyHasKey_map k f hf]

theorem nodeInfo_hasKey (i : NodeInfo) : i.toJSON.hasKey "nodeMetrics" = false := by
  have hr := sliceToJSON_hasKey "nodeMetrics" JSON.str (fun _ => rfl) i.Roles
  simp [NodeInfo.toJSON, JSON.hasKey, anyMemberHasKey, hr]

theorem podInfo_hasKey (p : PodInfo) : p.toJSON.hasKey "nodeMetrics" = false := by
  simp [PodInfo.toJSON, JSON.hasKey, anyMemberHasKey]

theorem deploymentInfo_hasKey (d : DeploymentInfo) : d.toJSON.hasKey "nodeMetrics" = false := by
  simp [DeploymentInfo.toJSON, JSON.hasKey, anyMemberHasKey]

/-- A response whose metrics slice is nil is encoded without the key. -/
theorem toJSON_hasKey_of_nil (r : MetricsResponse) (h : r.NodeMetrics = none) :
    r.toJSON.hasKey "nodeMetrics" = false := by
  have h1 := sliceToJSON_hasKey "nodeMetrics" NodeInfo.toJSON nodeInfo_hasKey r.Nodes
  have h2 := sliceToJSON_hasKey "nodeMetrics" PodInfo.toJSON podInfo_hasKey r.Pods
  have h3 := sliceToJSON_hasKey "nodeMetrics" DeploymentInfo.toJSON deploymentInfo_hasKey
    r.Deployments
  simp [MetricsResponse.toJSON, h, Slice.len, JSON.hasKey, anyMemberHasKey, h1, h2, h3]

/-! ## The handler (claims C1, C2, C9, C10) -/

/-- C1, counterexample: when all three cluster queries fail and the metrics
client is absent, the body is the document with three null fields followed
by a newline, not the document with three empty arrays; the field "nodes" is
null and not an array, also when the queries succeed with zero items. -/
theorem C1_failed_query_gives_null :
    (metricsHandler failingCluster none).Body =
      "\x7b\"nodes\":null,\"pods\":null,\"deployments\":null\x7d\n" ∧
    (metricsHandler failingCluster none).Body ≠
      "\x7b\"nodes\":[],\"pods\":[],\"deployments\":[]\x7d" ∧
    (metricsHandler failingCluster none).Body ≠
      "\x7b\"nodes\":[],\"pods\":[],\"deployments\":[]\x7d\n" ∧
    ((collect failingCluster none).toJSON.field? "nodes").map JSON.isArray = some false ∧
    ((collect ⟨.ok [], .ok [], .ok []⟩ none).toJSON.field? "nodes").map JSON.isArray =
      some false ∧
    (metricsHandler ⟨.ok [], .ok [], .ok []⟩ none).Body =
      "\x7b\"nodes\":null,\"pods\":null,\"deployments\":null\x7d\n" ∧
    (metricsHandler failingCluster (some failingMetrics)).Body =
      "\x7b\"nodes\":null,\"pods\":null,\"deployments\":null\x7d\n" := by
  decide

/-- C1, amended: for every combination of outcomes of the four queries,
each of the fields "nodes", "pods" and "deployments" is present in the JSON
written by metricsHandler; it is null when its query fails or succeeds with
zero items, and the array of the translated items when its query succeeds
with at least one item. When the three cluster queries fail and the metrics
query fails or its client is absent, the body is exactly the document with
the three fields null, followed by a newline. -/
theorem C1_list_fields_null_or_array (qn : Except String (List Node))
    (qp : Except String (List Pod)) (qd : Except String (List Deployment))
    (mc : Option MetricsClientset) (e e₁ e₂ e₃ : String)
    (n : Node) (ns : List Node) (p : Pod) (ps : List Pod)
    (d : Deployment) (ds : List Deployment) :
    (collect ⟨.error e, qp, qd⟩ mc).toJSON.field? "nodes" = some .null ∧
    (collect ⟨.ok [], qp, qd⟩ mc).toJSON.field? "nodes" = some .null ∧
    (collect ⟨.ok (n :: ns), qp, qd⟩ mc).toJSON.field? "nodes" =
      some (.arr ((n :: ns).map (fun x => (buildNodeInfo x).toJSON))) ∧
    (collect ⟨qn, .error e, qd⟩ mc).toJSON.field? "pods" = some .null ∧
    (collect ⟨qn, .ok [], qd⟩ mc).toJSON.field? "pods" = some .null ∧
    (collect ⟨qn, .ok (p :: ps), qd⟩ mc).toJSON.field? "pods" =
      some (.arr ((p :: ps).map (fun x => (buildPodInfo x).toJSON))) ∧
    (collect ⟨qn, qp, .error e⟩ mc).toJSON.field? "deployments" = some .null ∧
    (collect ⟨qn, qp, .ok []⟩ mc).toJSON.field? "deployments" = some .null ∧
    (collect ⟨qn, qp, .ok (d :: ds)⟩ mc).toJSON.field? "deployments" =
      some (.arr ((d :: ds).map (fun x => (buildDeploymentInfo x).toJSON))) ∧
    (metricsHandler ⟨.error e₁, .error e₂, .error e₃⟩ none).Body =
      "\x7b\"nodes\":null,\"pods\":null,\"deployments\":null\x7d\n" ∧
    (metricsHandler ⟨.error e₁, .error e₂, .error e₃⟩ (some ⟨.error e⟩)).Body =
      "\x7b\"nodes\":null,\"pods\":null,\"deployments\":null\x7d\n" := by
  refine ⟨?_, ?_, ?_, ?_, ?_, ?_, ?_, ?_, ?_, ?_, ?_⟩
  · rw [toJSON_field_nodes, collect_eq]; rfl
  · rw [toJSON_field_nodes, collect_eq]; rfl
  · rw [toJSON_field_nodes, collect_eq]
    simp [gathered, Slice.ofAppends, Slice.toJSON]
  · rw [toJSON_field_pods, collect_eq]; rfl
  · rw [toJSON_field_pods, collect_eq]; rfl
  · rw [toJSON_field_pods, collect_eq]
    simp [gathered, Slice.ofAppends, Slice.toJSON]
  · rw [toJSON_field_deployments, collect_eq]; rfl
  · rw [toJSON_field_deployments, collect_eq]; rfl
  · rw [toJSON_field_deployments, collect_eq]
    simp [gathered, Slice.ofAppends, Slice.toJSON]
  · unfold metricsHandler
    simp only [collect_eq, gathered]
    decide
  · unfold metricsHandler
    simp only [collect_eq, gathered]
    decide

/-- C2: the four collections of the response are independent. For any two
runs that agree on the outcome of one query (for nodeMetrics: on the metrics
client and the outcome of its query) and differ arbitrarily on the other
three, the collection of that query in the response record, and its field in
the JSON written, are identical. -/
theorem C2_queries_independent (qn qn' : Except String (List Node))
    (qp qp' : Except String (List Pod)) (qd qd' : Except String (List Deployment))
    (mc mc' : Option MetricsClientset) :
    (collect ⟨qn, qp, qd⟩ mc).Nodes = (collect ⟨qn, qp', qd'⟩ mc').Nodes ∧
    (collect ⟨qn, qp, qd⟩ mc).Pods = (collect ⟨qn', qp, qd'⟩ mc').Pods ∧
    (collect ⟨qn, qp, qd⟩ mc).Deployments = (collect ⟨qn', qp', qd⟩ mc').Deployments ∧
    (collect ⟨qn, qp, qd⟩ mc).NodeMetrics = (collect ⟨qn', qp', qd'⟩ mc).NodeMetrics ∧
    (collect ⟨qn, qp, qd⟩ mc).toJSON.field? "nodes" =
      (collect ⟨qn, qp', qd'⟩ mc').toJSON.field? "nodes" ∧
    (collect ⟨qn, qp, qd⟩ mc).toJSON.field? "pods" =
      (collect ⟨qn', qp, qd'⟩ mc').toJSON.field? "pods" ∧
    (collect ⟨qn, qp, qd⟩ mc).toJSON.field? "deployments" =
      (collect ⟨qn', qp', qd⟩ mc').toJSON.field? "deployments" ∧
    (collect ⟨qn, qp, qd⟩ mc).toJSON.field? "nodeMetrics" =
      (collect ⟨qn', qp', qd'⟩ mc).toJSON.field? "nodeMetrics" := by
  simp only [toJSON_field_nodes, toJSON_field_pods, toJSON_field_deployments,
    toJSON_field_nodeMetrics, collect_eq, and_self]

/-- C9: if the metrics client is absent, or its query fails, the JSON
written by metricsHandler (the body is the text of this document and a
newline) has no key "nodeMetrics", at the top level or anywhere else,
whatever the outcomes of the other three queries; its keys are exactly
"nodes", "pods" and "deployments". -/
theorem C9_nodeMetrics_omitted (k8s : K8sInterface) (e : String) :
    (collect k8s none).toJSON.hasKey "nodeMetrics" = false ∧
    (collect k8s (some ⟨.error e⟩)).toJSON.hasKey "nodeMetrics" = false ∧
    (collect k8s none).toJSON.field? "nodeMetrics" = none ∧
    (collect k8s (some ⟨.error e⟩)).toJSON.field? "nodeMetrics" = none ∧
    (collect k8s none).toJSON.keys = ["nodes", "pods", "deployments"] ∧
    (collect k8s (some ⟨.error e⟩)).toJSON.keys = ["nodes", "pods", "deployments"] ∧
    (∀ mc, (metricsHandler k8s mc).Body = (collect k8s mc).toJSON.render ++ "\n") := by
  have h1 : (collect k8s none).NodeMetrics = none := by rw [collect_eq]
  have h2 : (collect k8s (some ⟨.error e⟩)).NodeMetrics = none := by rw [collect_eq]; rfl
  refine ⟨toJSON_hasKey_of_nil _ h1, toJSON_hasKey_of_nil _ h2, ?_, ?_, ?_, ?_, fun _ => rfl⟩
  · rw [toJSON_field_nodeMetrics, h1]; rfl
  · rw [toJSON_field_nodeMetrics, h2]; rfl
  · rw [toJSON_keys, h1]; rfl
  · rw [toJSON_keys, h2]; rfl

/-- C10: when a query succeeds with a non-empty item list (for the metrics
query, with the client present), its collection in the response is the
matching translator applied to each item, in the same order and of the same
length, and the field of the JSON written by metricsHandler is the array of
the encoded records. -/
theorem C10_items_translated_in_order (qn : Except String (List Node))
    (qp : Except String (List Pod)) (qd : Except String (List Deployment))
    (mc : Option MetricsClientset)
    (n : Node) (ns : List Node) (p : Pod) (ps : List Pod)
    (d : Deployment) (ds : List Deployment) (m : RawNodeMetrics) (ms : List RawNodeMetrics) :
    (collect ⟨.ok (n :: ns), qp, qd⟩ mc).Nodes = some ((n :: ns).map buildNodeInfo) ∧
    (collect ⟨qn, .ok (p :: ps), qd⟩ mc).Pods = some ((p :: ps).map buildPodInfo) ∧
    (collect ⟨qn, qp, .ok (d :: ds)⟩ mc).Deployments =
      some ((d :: ds).map buildDeploymentInfo) ∧
    (collect ⟨qn, qp, qd⟩ (some ⟨.ok (m :: ms)⟩)).NodeMetrics =
      some ((m :: ms).map buildNodeMetrics) ∧
    (collect ⟨.ok (n :: ns), qp, qd⟩ mc).Nodes.len = (n :: ns).length ∧
    (collect ⟨qn, .ok (p :: ps), qd⟩ mc).Pods.len = (p :: ps).length ∧
    (collect ⟨qn, qp, .ok (d :: ds)⟩ mc).Deployments.len = (d :: ds).length ∧
    (collect ⟨qn, qp, qd⟩ (some ⟨.ok (m :: ms)⟩)).NodeMetrics.len = (m :: ms).length ∧
    (collect ⟨.ok (n :: ns), qp, qd⟩ mc).toJSON.field? "nodes" =
      some (.arr ((n :: ns).map (fun x => (buildNodeInfo x).toJSON))) ∧
    (collect ⟨qn, .ok (p :: ps), qd⟩ mc).toJSON.field? "pods" =
      some (.arr ((p :: ps).map (fun x => (buildPodInfo x).toJSON))) ∧
    (collect ⟨qn, qp, .ok (d :: ds)⟩ mc).toJSON.field? "deployments" =
      some (.arr ((d :: ds).map (fun x => (buildDeploymentInfo x).toJSON))) ∧
    (collect ⟨qn, qp, qd⟩ (some ⟨.ok (m :: ms)⟩)).toJSON.field? "nodeMetrics" =
      some (.arr ((m :: ms).map (fun x => (buildNodeMetrics x).toJSON))) ∧
    (metricsHandler ⟨qn, qp, qd⟩ mc).Body = (collect ⟨qn, qp, qd⟩ mc).toJSON.render ++ "\n" := by
  refine ⟨?_, ?_, ?_, ?_, ?_, ?_, ?_, ?_, ?_, ?_, ?_, ?_, rfl⟩ <;>
    simp only [toJSON_field_nodes, toJSON_field_pods, toJSON_field_deployments,
      toJSON_field_nodeMetrics, collect_eq] <;>
    simp [gathered, Slice.ofAppends, Slice.toJSON, Slice.len]

end Dashboard
